import Mathlib

/-!
# Verification of the coffee-order configurator (`main.py`)

A shallow embedding of `CoffeeOrderBuilder` / `CoffeeOrder` from `src/main.py`.
Python's mutable builder is modelled by explicit state passing: every method
becomes a function from a `BuilderState` to a post-state (paired with an
optional error for the fallible methods, and with an `Except` result for
`build`).  Python's `set` of syrups is modelled as a duplicate-free list in
insertion order; `set.add` of an element already present is a no-op, mirrored
by a membership test.  Prices are modelled as rationals: every price reachable
through the public API is computed exactly by IEEE-754 doubles (each
base-price × size-multiplier product lands on an exactly representable value
— the closest case, 320 × 1.4, rounds half-to-even to exactly 448.0 — and all
later additions are between exactly representable values with exact sums), so
the rational model agrees with the Python float semantics at every reachable
state.
-/

namespace Coffee

/-- `CoffeeOrder`, the frozen dataclass from `main.py`: an immutable snapshot
with the computed price and description. -/
structure CoffeeOrder where
  base : String
  size : String
  milk : String
  syrups : List String
  sugar : Int
  iced : Bool
  price : ℚ
  description : String
  deriving DecidableEq

/-- The mutable fields of `CoffeeOrderBuilder` (`self.base`, `self.size`,
`self.milk`, `self.syrups`, `self.sugar`, `self.iced`). -/
structure BuilderState where
  base : Option String
  size : Option String
  milk : String
  syrups : List String
  sugar : Int
  iced : Bool
  deriving DecidableEq

/-- Error taxonomy of the spec.  The source raises `ValueError` everywhere;
the constructor records which taxon the raise site belongs to, plus the
message string. -/
inductive BuildError where
  | invalidSelection : String → BuildError
  | outOfRange : String → BuildError
  | missingRequiredField : String → BuildError
  deriving DecidableEq

/-- `BASE_PRICES = {'espresso': 200, 'americano': 250, 'latte': 300,
'cappuccino': 320}` as a partial map; `none` for keys outside the dict. -/
def BASE_PRICES : String → Option ℚ
  | "espresso" => some 200
  | "americano" => some 250
  | "latte" => some 300
  | "cappuccino" => some 320
  | _ => none

/-- `SIZE_MULTIPLIERS = {'small': 1.0, 'medium': 1.2, 'large': 1.4}`. -/
def SIZE_MULTIPLIERS : String → Option ℚ
  | "small" => some 1.0
  | "medium" => some 1.2
  | "large" => some 1.4
  | _ => none

/-- `MILK_PRICES = {'none': 0.0, 'whole': 30, 'skim': 30, 'oat': 60,
'soy': 50}`. -/
def MILK_PRICES : String → Option ℚ
  | "none" => some 0.0
  | "whole" => some 30
  | "skim" => some 30
  | "oat" => some 60
  | "soy" => some 50
  | _ => none

/-- `SYRUP_PRICE = 40`. -/
def SYRUP_PRICE : ℚ := 40

/-- `ICED_PRICE = 20`. -/
def ICED_PRICE : ℚ := 20

/-- `MAX_SYRUPS = 4`. -/
def MAX_SYRUPS : Nat := 4

/-- `SUGAR_RANGE = (0, 5)`. -/
def SUGAR_RANGE : Int × Int := (0, 5)

/-- Boolean lexicographic comparison of char lists by code point (Python's
string order).  Defined directly (rather than through `String.lt`, whose
iterator recursion the kernel cannot evaluate) so that concrete sorts
reduce; `strLe_iff` below identifies it with `≤` on `String`. -/
def leChars : List Char → List Char → Bool
  | [], _ => true
  | _ :: _, [] => false
  | a :: as, b :: bs => if a < b then true else if b < a then false else leChars as bs

/-- `a ≤ b` on strings, as an executable Boolean (see `strLe_iff`). -/
def strLe (a b : String) : Bool := leChars a.data b.data

/-- Python's `sorted(list(s))` on a set of strings: lexicographic by code
point. -/
def sortSyrups (l : List String) : List String :=
  List.insertionSort (fun a b => strLe a b = true) l

/-- The state `reset()` produces (also the `__init__` state, since
`__init__` just calls `reset`). -/
def initState : BuilderState :=
  { base := none, size := none, milk := "none", syrups := [], sugar := 0, iced := false }

/-- `reset(self)`: every field back to its default; the prior state is
discarded. -/
def reset (_ : BuilderState) : BuilderState := initState

/-- `set_base`: raise `ValueError(f'Invalid base: {base}. Allowed: ...')`
when `base` is not a key of `BASE_PRICES`, otherwise store it.  The raise
happens before the assignment, so the error case returns the state
unchanged.  (The Python message also interpolates the allowed set, whose
`repr` order is unspecified; the message tail is therefore elided.) -/
def set_base (st : BuilderState) (base : String) : BuilderState × Option BuildError :=
  if (BASE_PRICES base).isSome then
    ({ st with base := some base }, none)
  else
    (st, some (BuildError.invalidSelection ("Invalid base: " ++ base)))

/-- `set_size`, analogous to `set_base` against `SIZE_MULTIPLIERS`. -/
def set_size (st : BuilderState) (size : String) : BuilderState × Option BuildError :=
  if (SIZE_MULTIPLIERS size).isSome then
    ({ st with size := some size }, none)
  else
    (st, some (BuildError.invalidSelection ("Invalid size: " ++ size)))

/-- `set_milk`, analogous to `set_base` against `MILK_PRICES`. -/
def set_milk (st : BuilderState) (milk : String) : BuilderState × Option BuildError :=
  if (MILK_PRICES milk).isSome then
    ({ st with milk := milk }, none)
  else
    (st, some (BuildError.invalidSelection ("Invalid milk: " ++ milk)))

/-- `add_syrup`: `if len(self.syrups) >= self.MAX_SYRUPS: return self;
self.syrups.add(syrup_name)`.  Never raises.  Set semantics of `add`:
inserting a name already present leaves the set unchanged. -/
def add_syrup (st : BuilderState) (syrup_name : String) : BuilderState :=
  if MAX_SYRUPS ≤ st.syrups.length then st
  else if syrup_name ∈ st.syrups then st
  else { st with syrups := st.syrups ++ [syrup_name] }

/-- `set_sugar`: raise
`ValueError(f'Sugar must be between {lo} and {hi} teaspoons')` when
`teaspoons` is outside the inclusive `SUGAR_RANGE`, otherwise store it. -/
def set_sugar (st : BuilderState) (teaspoons : Int) : BuilderState × Option BuildError :=
  if SUGAR_RANGE.1 ≤ teaspoons ∧ teaspoons ≤ SUGAR_RANGE.2 then
    ({ st with sugar := teaspoons }, none)
  else
    (st, some (BuildError.outOfRange
      ("Sugar must be between " ++ toString SUGAR_RANGE.1 ++ " and "
        ++ toString SUGAR_RANGE.2 ++ " teaspoons")))

/-- `set_iced(iced=True)`: store the flag unconditionally (the Python
default argument `True` is supplied explicitly here). -/
def set_iced (st : BuilderState) (iced : Bool) : BuilderState :=
  { st with iced := iced }

/-- `clear_extras`: milk back to `'none'`, syrups cleared, sugar 0, iced
false; base and size untouched. -/
def clear_extras (st : BuilderState) : BuilderState :=
  { st with milk := "none", syrups := [], sugar := 0, iced := false }

/-- `build()`: fail when base or size is unset (base checked first);
otherwise compute the price and description exactly as the source does and
return the snapshot.  The configurator state is threaded through and — as in
the source, which assigns no `self` field in `build` — returned unchanged.
The catalog lookups use `getD 0` where Python indexes the dict directly:
the setters only ever store catalog keys, so the default is unreachable
through the API. -/
def buildS (st : BuilderState) : BuilderState × Except BuildError CoffeeOrder :=
  match st.base with
  | none => (st, Except.error (BuildError.missingRequiredField "Base must be set"))
  | some base =>
    match st.size with
    | none => (st, Except.error (BuildError.missingRequiredField "Size must be set"))
    | some size =>
      let price1 := (BASE_PRICES base).getD 0
      let price2 := price1 * (SIZE_MULTIPLIERS size).getD 0
      let price3 := price2 + (MILK_PRICES st.milk).getD 0
      let price4 := price3 + (st.syrups.length : ℚ) * SYRUP_PRICE
      let price5 := if st.iced then price4 + ICED_PRICE else price4
      let d1 := size ++ " " ++ base
      let d2 := if st.milk ≠ "none" then d1 ++ " with " ++ st.milk ++ " milk" else d1
      let d3 := if st.syrups ≠ [] then
          d2 ++ " + " ++ String.intercalate ", " (sortSyrups st.syrups) else d2
      let d4 := if st.iced then d3 ++ " (iced)" else d3
      let d5 := if 0 < st.sugar then d4 ++ " " ++ toString st.sugar ++ " tsp sugar" else d4
      (st, Except.ok
        { base := base, size := size, milk := st.milk, syrups := sortSyrups st.syrups,
          sugar := st.sugar, iced := st.iced, price := price5, description := d5 })

/-- One public mutating call, for reasoning about arbitrary call
sequences. -/
inductive Op where
  | oSetBase : String → Op
  | oSetSize : String → Op
  | oSetMilk : String → Op
  | oAddSyrup : String → Op
  | oSetSugar : Int → Op
  | oSetIced : Bool → Op
  | oClearExtras : Op
  | oReset : Op
  | oBuild : Op
  deriving DecidableEq

/-- The post-state of one call (a failed setter leaves the state unchanged,
which is what its post-state component records). -/
def applyOp (st : BuilderState) : Op → BuilderState
  | Op.oSetBase b => (set_base st b).1
  | Op.oSetSize s => (set_size st s).1
  | Op.oSetMilk m => (set_milk st m).1
  | Op.oAddSyrup n => add_syrup st n
  | Op.oSetSugar t => (set_sugar st t).1
  | Op.oSetIced f => set_iced st f
  | Op.oClearExtras => clear_extras st
  | Op.oReset => reset st
  | Op.oBuild => (buildS st).1

/-- Lower-case a single ASCII letter (identity elsewhere). -/
def lowerChar (c : Char) : Char :=
  if 'A' ≤ c ∧ c ≤ 'Z' then Char.ofNat (c.toNat + 32) else c

/-- Lower-case a string, for case-insensitive "mentions" checks on error
messages. -/
def lowerStr (s : String) : String :=
  String.mk (s.toList.map lowerChar)

/-- `startsWithList hay needle`: `needle` is an initial segment of `hay`. -/
def startsWithList : List Char → List Char → Bool
  | _, [] => true
  | [], _ :: _ => false
  | a :: as, b :: bs => a == b && startsWithList as bs

/-- `containsList hay needle`: `needle` occurs contiguously in `hay`. -/
def containsList : List Char → List Char → Bool
  | [], needle => needle.isEmpty
  | a :: as, needle => startsWithList (a :: as) needle || containsList as needle

/-- A message "mentions" a field when the field's name occurs in it, up to
ASCII case. -/
def mentions (msg fld : String) : Bool :=
  containsList (lowerStr msg).toList (lowerStr fld).toList

/-- The price formula exactly as the specification words it:
`basePrice*sizeMultiplier + milkPrice + syrupCount*40 + (20 if iced else 0)`. -/
def priceSpec (basePrice sizeMult milkPrice : ℚ) (syrupCount : Nat) (iced : Bool) : ℚ :=
  basePrice * sizeMult + milkPrice + (syrupCount : ℚ) * 40 + (if iced then 20 else 0)

/-- The description algorithm exactly as the specification words it: start
with `"<size> <base>"`; if milk is not `"none"` append `" with <milk> milk"`;
if at least one syrup is selected append `" + "` plus the syrup names sorted
lexicographically joined with `", "`; if iced append `" (iced)"`; if sugar
spoons > 0 append `" <count> tsp sugar"`. -/
def descriptionSpec (size base milk : String) (syrups : List String)
    (sugar : Int) (iced : Bool) : String :=
  let d1 := size ++ " " ++ base
  let d2 := if milk ≠ "none" then d1 ++ " with " ++ milk ++ " milk" else d1
  let d3 := if syrups ≠ [] then
      d2 ++ " + " ++ String.intercalate ", " (sortSyrups syrups) else d2
  let d4 := if iced then d3 ++ " (iced)" else d3
  let d5 := if 0 < sugar then d4 ++ " " ++ toString sugar ++ " tsp sugar" else d4
  d5

/-! ## Helper lemmas: `strLe` agrees with the lexicographic order on `String` -/

theorem list_lt_cons_iff {a b : Char} {as bs : List Char} :
    List.lt (b :: bs) (a :: as) ↔ (b < a ∨ (¬b < a ∧ ¬a < b ∧ List.lt bs as)) := by
  constructor
  · intro h
    cases h with
    | head _ _ h => exact Or.inl h
    | tail h1 h2 h3 => exact Or.inr ⟨h1, h2, h3⟩
  · intro h
    rcases h with h | ⟨h1, h2, h3⟩
    · exact List.lt.head _ _ h
    · exact List.lt.tail h1 h2 h3

theorem leChars_iff : ∀ (as bs : List Char), leChars as bs = true ↔ ¬ List.lt bs as
  | [], bs => by
    simp only [leChars]
    constructor
    · intro _ h; cases h
    · intro _; trivial
  | a :: as, [] => by
    simp only [leChars]
    constructor
    · intro h; cases h
    · intro h; exact absurd (List.lt.nil a as) h
  | a :: as, b :: bs => by
    simp only [leChars]
    by_cases hab : a < b
    · simp only [if_pos hab]
      constructor
      · intro _ h
        rcases list_lt_cons_iff.1 h with h' | ⟨_, h2, _⟩
        · exact absurd hab (asymm h')
        · exact h2 hab
      · intro _; trivial
    · simp only [if_neg hab]
      by_cases hba : b < a
      · simp only [if_pos hba]
        constructor
        · intro h; cases h
        · intro h; exact absurd (List.lt.head _ _ hba) h
      · simp only [if_neg hba]
        rw [leChars_iff as bs]
        constructor
        · intro h hlt
          rcases list_lt_cons_iff.1 hlt with h' | ⟨_, _, h3⟩
          · exact hba h'
          · exact h h3
        · intro h hlt
          exact h (list_lt_cons_iff.2 (Or.inr ⟨hba, hab, hlt⟩))

theorem strLe_iff (a b : String) : strLe a b = true ↔ a ≤ b := by
  rw [String.le_iff_toList_le, ← not_lt]
  show _ ↔ ¬ List.Lex (fun x y => x < y) b.toList a.toList
  rw [← List.lt_iff_lex_lt]
  exact leChars_iff a.data b.data

theorem sortSyrups_sorted (l : List String) :
    List.Sorted (fun a b : String => a ≤ b) (sortSyrups l) := by
  haveI htot : IsTotal String (fun a b => strLe a b = true) := ⟨fun a b => by
    rcases le_total a b with h | h
    · exact Or.inl ((strLe_iff a b).2 h)
    · exact Or.inr ((strLe_iff b a).2 h)⟩
  haveI htr : IsTrans String (fun a b => strLe a b = true) := ⟨fun a b c hab hbc =>
    (strLe_iff a c).2 (le_trans ((strLe_iff a b).1 hab) ((strLe_iff b c).1 hbc))⟩
  exact (List.sorted_insertionSort (fun a b : String => strLe a b = true) l).imp
    (fun hab => (strLe_iff _ _).1 hab)

theorem sortSyrups_perm (l : List String) : (sortSyrups l).Perm l :=
  List.perm_insertionSort _ l

/-! ## Claim theorems -/

/-- C1: for every configurator state with a valid base, size, and milk
selected, `build` returns an Order whose price equals
`basePriceOf(base) * sizeMultiplierOf(size) + milkPriceOf(milk) +
(count of distinct syrups) * 40 + (20 if iced else 0)`; the catalogs hold
exactly the claimed values; and the concrete state base `"americano"`,
size `"large"`, milk `"none"`, one syrup, sugar 0, not iced prices
to 390. -/
theorem price_formula :
    (∀ (b s milk : String) (syr : List String) (sug : Int) (ice : Bool) (pb ms pm : ℚ),
      BASE_PRICES b = some pb → SIZE_MULTIPLIERS s = some ms → MILK_PRICES milk = some pm →
      ∃ o : CoffeeOrder,
        (buildS ⟨some b, some s, milk, syr, sug, ice⟩).2 = Except.ok o ∧
        o.price = priceSpec pb ms pm syr.length ice) ∧
    (BASE_PRICES "espresso" = some 200 ∧ BASE_PRICES "americano" = some 250 ∧
      BASE_PRICES "latte" = some 300 ∧ BASE_PRICES "cappuccino" = some 320) ∧
    (SIZE_MULTIPLIERS "small" = some 1 ∧ SIZE_MULTIPLIERS "medium" = some 1.2 ∧
      SIZE_MULTIPLIERS "large" = some 1.4) ∧
    (MILK_PRICES "none" = some 0 ∧ MILK_PRICES "whole" = some 30 ∧
      MILK_PRICES "skim" = some 30 ∧ MILK_PRICES "oat" = some 60 ∧
      MILK_PRICES "soy" = some 50) ∧
    (∃ o : CoffeeOrder,
      (buildS ⟨some "americano", some "large", "none", ["caramel"], 0, false⟩).2 =
        Except.ok o ∧ o.price = 390) := by
  have hmain : ∀ (b s milk : String) (syr : List String) (sug : Int) (ice : Bool) (pb ms pm : ℚ),
      BASE_PRICES b = some pb → SIZE_MULTIPLIERS s = some ms → MILK_PRICES milk = some pm →
      ∃ o : CoffeeOrder,
        (buildS ⟨some b, some s, milk, syr, sug, ice⟩).2 = Except.ok o ∧
        o.price = priceSpec pb ms pm syr.length ice := by
    intro b s milk syr sug ice pb ms pm hpb hms hpm
    refine ⟨_, rfl, ?_⟩
    simp only [buildS, priceSpec, SYRUP_PRICE, ICED_PRICE, hpb, hms, hpm, Option.getD_some]
    cases ice <;> simp
  refine ⟨hmain, ⟨rfl, rfl, rfl, rfl⟩, ⟨by norm_num [SIZE_MULTIPLIERS], rfl, rfl⟩,
    ⟨by norm_num [MILK_PRICES], rfl, rfl, rfl, rfl⟩, ?_⟩
  obtain ⟨o, ho, hp⟩ := hmain "americano" "large" "none" ["caramel"] 0 false 250 1.4 0.0 rfl rfl rfl
  exact ⟨o, ho, by rw [hp]; norm_num [priceSpec]⟩

/-- C1 witness: the universal part of `price_formula` applied at the
latte/medium/oat state of the spec's first concrete scenario. -/
theorem price_formula_witness :
    ∃ o : CoffeeOrder,
      (buildS ⟨some "latte", some "medium", "oat", ["vanilla"], 2, true⟩).2 = Except.ok o ∧
      o.price = priceSpec 300 1.2 60 ["vanilla"].length true :=
  price_formula.1 "latte" "medium" "oat" ["vanilla"] 2 true 300 1.2 60 rfl rfl rfl

/-- C2: for every configurator state with base and size set, the built
Order's description is exactly the spec's algorithm — `"<size> <base>"`,
then `" with <milk> milk"` iff milk is not `"none"`, then `" + "` plus the
distinct syrups sorted lexicographically joined with `", "` iff any syrup
is selected, then `" (iced)"` iff iced, then `" <count> tsp sugar"` iff
sugar > 0, each clause at most once in this fixed order (the Order's syrup
sequence being a lexicographically sorted permutation of the selection);
the concrete latte/medium/oat scenario yields
`"medium latte with oat milk + vanilla (iced) 2 tsp sugar"`. -/
theorem description_formula :
    (∀ (b s milk : String) (syr : List String) (sug : Int) (ice : Bool),
      ∃ o : CoffeeOrder,
        (buildS ⟨some b, some s, milk, syr, sug, ice⟩).2 = Except.ok o ∧
        o.description = descriptionSpec s b milk syr sug ice ∧
        o.syrups = sortSyrups syr ∧
        List.Sorted (fun a c : String => a ≤ c) o.syrups ∧
        o.syrups.Perm syr) ∧
    (∃ o : CoffeeOrder,
      (buildS ⟨some "latte", some "medium", "oat", ["vanilla"], 2, true⟩).2 = Except.ok o ∧
      o.description = "medium latte with oat milk + vanilla (iced) 2 tsp sugar") := by
  constructor
  · intro b s milk syr sug ice
    exact ⟨_, rfl, rfl, rfl, sortSyrups_sorted syr, sortSyrups_perm syr⟩
  · exact ⟨_, rfl, by decide⟩

/-- C3 counterexample: in the state with both base and size unset, `build`
raises with the message `"Base must be set"`, which mentions the base field
but does not mention `"size"` — contradicting the claim that the message
identifies every missing field. -/
theorem missing_both_fields_cex :
    (buildS initState).2 =
      Except.error (BuildError.missingRequiredField "Base must be set") ∧
    mentions "Base must be set" "base" = true ∧
    mentions "Base must be set" "size" = false :=
  ⟨rfl, by decide, by decide⟩

/-- C3 amended: when base or size is unset, `build` fails with
`MissingRequiredField` and returns no Order; the message identifies the
first missing field in the order base-then-size — it mentions `"base"`
whenever base is absent, and mentions `"size"` whenever size is absent and
base is present (with both absent only the base field is identified). -/
theorem missing_fields_message :
    ∀ st : BuilderState, st.base = none ∨ st.size = none →
      ∃ msg : String,
        (buildS st).2 = Except.error (BuildError.missingRequiredField msg) ∧
        (∀ o : CoffeeOrder, (buildS st).2 ≠ Except.ok o) ∧
        (st.base = none → mentions msg "base" = true) ∧
        (st.base ≠ none → st.size = none → mentions msg "size" = true) := by
  rintro ⟨b?, s?, milk, syr, sug, ice⟩ h
  cases b? with
  | none =>
    refine ⟨"Base must be set", rfl, fun o ho => by exact absurd ho (by simp [buildS]), ?_, ?_⟩
    · intro _; decide
    · intro hb; exact absurd rfl hb
  | some b =>
    cases s? with
    | none =>
      refine ⟨"Size must be set", rfl, fun o ho => by exact absurd ho (by simp [buildS]), ?_, ?_⟩
      · intro hb; exact absurd hb (by simp)
      · intro _ _; decide
    | some s =>
      rcases h with h | h <;> exact absurd h (by simp)

/-- C3 witness: the amended theorem applied at a state with base set and
size unset. -/
theorem missing_fields_message_witness :
    ∃ msg : String,
      (buildS ⟨some "latte", none, "none", [], 0, false⟩).2 =
        Except.error (BuildError.missingRequiredField msg) ∧
      (∀ o : CoffeeOrder,
        (buildS ⟨some "latte", none, "none", [], 0, false⟩).2 ≠ Except.ok o) ∧
      ((⟨some "latte", none, "none", [], 0, false⟩ : BuilderState).base = none →
        mentions msg "base" = true) ∧
      ((⟨some "latte", none, "none", [], 0, false⟩ : BuilderState).base ≠ none →
        (⟨some "latte", none, "none", [], 0, false⟩ : BuilderState).size = none →
        mentions msg "size" = true) :=
  missing_fields_message ⟨some "latte", none, "none", [], 0, false⟩ (Or.inr rfl)

/-- C4: `set_sugar` succeeds exactly on counts inside the inclusive range
[0, 5], storing the count and leaving everything else unchanged; outside
the range it raises `OutOfRange` with a message stating both bounds, and
leaves the state unchanged. -/
theorem set_sugar_range :
    ∀ (st : BuilderState) (t : Int),
      ((0 ≤ t ∧ t ≤ 5) → set_sugar st t = ({ st with sugar := t }, none)) ∧
      (¬(0 ≤ t ∧ t ≤ 5) →
        ∃ msg : String,
          set_sugar st t = (st, some (BuildError.outOfRange msg)) ∧
          mentions msg "0" = true ∧ mentions msg "5" = true) := by
  intro st t
  constructor
  · intro h
    simp only [set_sugar, SUGAR_RANGE]
    rw [if_pos h]
  · intro h
    refine ⟨"Sugar must be between 0 and 5 teaspoons", ?_, by decide, by decide⟩
    simp only [set_sugar, SUGAR_RANGE]
    rw [if_neg h]
    rfl

/-- C4 witness: `set_sugar` at the in-range count 3 and the out-of-range
count 10 from the fresh state. -/
theorem set_sugar_range_witness :
    set_sugar initState 3 = ({ initState with sugar := 3 }, none) ∧
    ∃ msg : String,
      set_sugar initState 10 = (initState, some (BuildError.outOfRange msg)) ∧
      mentions msg "0" = true ∧ mentions msg "5" = true :=
  ⟨(set_sugar_range initState 3).1 (by decide), (set_sugar_range initState 10).2 (by decide)⟩

/-- Helper: `build` returns its input state unchanged (the source assigns
no field of `self` in `build`). -/
theorem buildS_fst (st : BuilderState) : (buildS st).1 = st := by
  rcases st with ⟨b?, s?, milk, syr, sug, ice⟩
  cases b? <;> cases s? <;> rfl

/-- Helper: one `add_syrup` call preserves the syrup-count bound. -/
theorem add_syrup_length_le (st : BuilderState) (nm : String)
    (h : st.syrups.length ≤ MAX_SYRUPS) :
    (add_syrup st nm).syrups.length ≤ MAX_SYRUPS := by
  unfold add_syrup
  by_cases h1 : MAX_SYRUPS ≤ st.syrups.length
  · rw [if_pos h1]; exact h
  · rw [if_neg h1]
    by_cases h2 : nm ∈ st.syrups
    · rw [if_pos h2]; exact h
    · rw [if_neg h2]
      simp only [List.length_append, List.length_cons, List.length_nil, MAX_SYRUPS] at h1 ⊢
      omega

/-- Helper: every public operation preserves the syrup-count bound. -/
theorem applyOp_length_le (st : BuilderState) (op : Op)
    (h : st.syrups.length ≤ MAX_SYRUPS) :
    (applyOp st op).syrups.length ≤ MAX_SYRUPS := by
  cases op with
  | oSetBase b => simp only [applyOp, set_base]; split <;> simpa using h
  | oSetSize s => simp only [applyOp, set_size]; split <;> simpa using h
  | oSetMilk m => simp only [applyOp, set_milk]; split <;> simpa using h
  | oAddSyrup n => exact add_syrup_length_le st n h
  | oSetSugar t => simp only [applyOp, set_sugar]; split <;> simpa using h
  | oSetIced f => simpa [applyOp, set_iced] using h
  | oClearExtras => simp [applyOp, clear_extras, MAX_SYRUPS]
  | oReset => simp [applyOp, reset, initState, MAX_SYRUPS]
  | oBuild => simpa [applyOp, buildS_fst st] using h

/-- Helper: any sequence of public operations preserves the syrup-count
bound. -/
theorem foldl_applyOp_length_le : ∀ (ops : List Op) (st : BuilderState),
    st.syrups.length ≤ MAX_SYRUPS → (ops.foldl applyOp st).syrups.length ≤ MAX_SYRUPS
  | [], _, h => h
  | op :: ops, st, h =>
    foldl_applyOp_length_le ops (applyOp st op) (applyOp_length_le st op h)

/-- C5: `add_syrup` never raises (it is a total function of the state);
when the distinct-syrup count already equals the maximum 4 it is a silent
no-op, and the count-at-most-4 invariant is preserved by every public
operation and hence by every operation sequence. -/
theorem add_syrup_cap :
    ∀ (st : BuilderState) (nm : String) (op : Op) (ops : List Op),
      (st.syrups.length = MAX_SYRUPS → add_syrup st nm = st) ∧
      (st.syrups.length ≤ MAX_SYRUPS → (applyOp st op).syrups.length ≤ MAX_SYRUPS) ∧
      (st.syrups.length ≤ MAX_SYRUPS →
        (ops.foldl applyOp st).syrups.length ≤ MAX_SYRUPS) := by
  intro st nm op ops
  refine ⟨?_, applyOp_length_le st op, fun h => foldl_applyOp_length_le ops st h⟩
  intro h
  unfold add_syrup
  rw [if_pos (le_of_eq h.symm)]

/-- C5 witness: a state already holding 4 syrups — one more `add_syrup` is
a no-op and op sequences keep the count at 4 or below. -/
theorem add_syrup_cap_witness :
    (add_syrup ⟨none, none, "none", ["a", "b", "c", "d"], 0, false⟩ "e" =
      ⟨none, none, "none", ["a", "b", "c", "d"], 0, false⟩) ∧
    (applyOp ⟨none, none, "none", ["a", "b", "c", "d"], 0, false⟩
      (Op.oAddSyrup "e")).syrups.length ≤ MAX_SYRUPS ∧
    ([Op.oAddSyrup "e", Op.oAddSyrup "f"].foldl applyOp
      ⟨none, none, "none", ["a", "b", "c", "d"], 0, false⟩).syrups.length ≤ MAX_SYRUPS := by
  have h := add_syrup_cap ⟨none, none, "none", ["a", "b", "c", "d"], 0, false⟩ "e"
    (Op.oAddSyrup "e") [Op.oAddSyrup "e", Op.oAddSyrup "f"]
  exact ⟨h.1 rfl, h.2.1 (by decide), h.2.2 (by decide)⟩

/-- C6: `add_syrup` is idempotent per name — adding the same name twice
leaves the same syrup set as adding it once (no duplicate, no error, no
extra capacity consumed); from an empty selection, adding a name twice
yields a distinct-syrup count of 1, not 2. -/
theorem add_syrup_idem :
    ∀ (st : BuilderState) (nm : String),
      add_syrup (add_syrup st nm) nm = add_syrup st nm ∧
      (st.syrups = [] → (add_syrup (add_syrup st nm) nm).syrups.length = 1) := by
  intro st nm
  have hmain : add_syrup (add_syrup st nm) nm = add_syrup st nm := by
    by_cases h1 : MAX_SYRUPS ≤ st.syrups.length
    · simp [add_syrup, h1]
    · by_cases h2 : nm ∈ st.syrups
      · simp [add_syrup, h1, h2]
      · have hst : add_syrup st nm = { st with syrups := st.syrups ++ [nm] } := by
          simp [add_syrup, h1, h2]
        rw [hst]
        by_cases h3 : MAX_SYRUPS ≤ (st.syrups ++ [nm]).length
        · simp [add_syrup, h3]
        · simp [add_syrup, h3]
  refine ⟨hmain, fun h => ?_⟩
  rw [hmain]
  simp [add_syrup, h, MAX_SYRUPS]

/-- C6 witness: adding `"vanilla"` twice from the fresh state equals adding
it once, and the resulting count is 1. -/
theorem add_syrup_idem_witness :
    add_syrup (add_syrup initState "vanilla") "vanilla" = add_syrup initState "vanilla" ∧
    (add_syrup (add_syrup initState "vanilla") "vanilla").syrups.length = 1 :=
  ⟨(add_syrup_idem initState "vanilla").1, (add_syrup_idem initState "vanilla").2 rfl⟩

/-- C7: `clear_extras` resets milk to `"none"`, empties the syrup set,
resets sugar to 0 and iced to false, and leaves base and size exactly as
they were. -/
theorem clear_extras_frame :
    ∀ st : BuilderState,
      (clear_extras st).milk = "none" ∧ (clear_extras st).syrups = [] ∧
      (clear_extras st).sugar = 0 ∧ (clear_extras st).iced = false ∧
      (clear_extras st).base = st.base ∧ (clear_extras st).size = st.size :=
  fun _ => ⟨rfl, rfl, rfl, rfl, rfl, rfl⟩

/-- Helper: full characterization of a successful `build` — every field of
the returned Order in terms of the state at build time. -/
theorem buildS_fields (b s milk : String) (syr : List String) (sug : Int) (ice : Bool) :
    ∃ o : CoffeeOrder,
      (buildS ⟨some b, some s, milk, syr, sug, ice⟩).2 = Except.ok o ∧
      o.base = b ∧ o.size = s ∧ o.milk = milk ∧ o.syrups = sortSyrups syr ∧
      o.sugar = sug ∧ o.iced = ice ∧
      o.price = (BASE_PRICES b).getD 0 * (SIZE_MULTIPLIERS s).getD 0
        + (MILK_PRICES milk).getD 0 + (syr.length : ℚ) * SYRUP_PRICE
        + (if ice then ICED_PRICE else 0) ∧
      o.description = descriptionSpec s b milk syr sug ice := by
  refine ⟨_, rfl, rfl, rfl, rfl, rfl, rfl, rfl, ?_, rfl⟩
  cases ice <;> simp

/-- C8: `build` does not mutate the configurator — its post-state equals
its pre-state, so any later operation sequence acts as if `build` had not
run; and in the builder-reuse scenario the two Orders built from the same
configurator instance are independent values with their own fields (the
source copies the syrup set into a fresh tuple and `CoffeeOrder` is a
frozen dataclass, so the Orders share no mutable state — rendered here by
the value semantics of the embedding). -/
theorem build_frame :
    (∀ st : BuilderState, (buildS st).1 = st) ∧
    (∀ (st : BuilderState) (ops : List Op),
      ops.foldl applyOp (buildS st).1 = ops.foldl applyOp st) ∧
    (∃ o1 o2 : CoffeeOrder,
      (buildS (set_size (set_base initState "latte").1 "medium").1).2 = Except.ok o1 ∧
      (buildS (add_syrup (clear_extras
        (set_size (set_base (set_size (set_base initState "latte").1 "medium").1
          "americano").1 "large").1) "caramel")).2 = Except.ok o2 ∧
      o1.base = "latte" ∧ o1.size = "medium" ∧ o1.price = 360 ∧
      o1.description = "medium latte" ∧
      o2.base = "americano" ∧ o2.size = "large" ∧ o2.milk = "none" ∧
      o2.iced = false ∧ o2.price = 390 ∧ o1 ≠ o2) := by
  refine ⟨buildS_fst, fun st ops => by rw [buildS_fst], ?_⟩
  obtain ⟨o1, ho1, hb1, hs1, _, _, _, _, hp1, hd1⟩ :=
    buildS_fields "latte" "medium" "none" [] 0 false
  obtain ⟨o2, ho2, hb2, hs2, hm2, _, _, hi2, hp2, _⟩ :=
    buildS_fields "americano" "large" "none" ["caramel"] 0 false
  have hp1' : o1.price = 360 := by
    rw [hp1]
    norm_num [show BASE_PRICES "latte" = some 300 from rfl,
      show SIZE_MULTIPLIERS "medium" = some 1.2 from rfl,
      show MILK_PRICES "none" = some 0.0 from rfl, SYRUP_PRICE]
  have hp2' : o2.price = 390 := by
    rw [hp2]
    norm_num [show BASE_PRICES "americano" = some 250 from rfl,
      show SIZE_MULTIPLIERS "large" = some 1.4 from rfl,
      show MILK_PRICES "none" = some 0.0 from rfl, SYRUP_PRICE]
  have hd1' : o1.description = "medium latte" := by rw [hd1]; decide
  refine ⟨o1, o2, ho1, ho2, hb1, hs1, hp1', hd1', hb2, hs2, hm2, hi2, hp2', ?_⟩
  intro he
  rw [he, hb2] at hb1
  exact absurd hb1 (by decide)

/-- Helper: `set_base` rejects exactly the names outside the base catalog
and leaves the state unchanged when it rejects. -/
theorem set_base_spec (st : BuilderState) (b : String) :
    ((set_base st b).2.isSome = true → (set_base st b).1 = st) ∧
    ((set_base st b).2.isSome = true ↔ BASE_PRICES b = none) := by
  unfold set_base
  by_cases hc : (BASE_PRICES b).isSome = true
  · rw [if_pos hc]
    refine ⟨fun h => by simp at h, ?_⟩
    constructor
    · intro h; simp at h
    · intro h; rw [h] at hc; simp at hc
  · rw [if_neg hc]
    exact ⟨fun _ => rfl, iff_of_true rfl (Option.not_isSome_iff_eq_none.mp hc)⟩

/-- Helper: `set_size` rejects exactly the names outside the size catalog
and leaves the state unchanged when it rejects. -/
theorem set_size_spec (st : BuilderState) (s : String) :
    ((set_size st s).2.isSome = true → (set_size st s).1 = st) ∧
    ((set_size st s).2.isSome = true ↔ SIZE_MULTIPLIERS s = none) := by
  unfold set_size
  by_cases hc : (SIZE_MULTIPLIERS s).isSome = true
  · rw [if_pos hc]
    refine ⟨fun h => by simp at h, ?_⟩
    constructor
    · intro h; simp at h
    · intro h; rw [h] at hc; simp at hc
  · rw [if_neg hc]
    exact ⟨fun _ => rfl, iff_of_true rfl (Option.not_isSome_iff_eq_none.mp hc)⟩

/-- Helper: `set_milk` rejects exactly the names outside the milk catalog
and leaves the state unchanged when it rejects. -/
theorem set_milk_spec (st : BuilderState) (m : String) :
    ((set_milk st m).2.isSome = true → (set_milk st m).1 = st) ∧
    ((set_milk st m).2.isSome = true ↔ MILK_PRICES m = none) := by
  unfold set_milk
  by_cases hc : (MILK_PRICES m).isSome = true
  · rw [if_pos hc]
    refine ⟨fun h => by simp at h, ?_⟩
    constructor
    · intro h; simp at h
    · intro h; rw [h] at hc; simp at hc
  · rw [if_neg hc]
    exact ⟨fun _ => rfl, iff_of_true rfl (Option.not_isSome_iff_eq_none.mp hc)⟩

/-- Helper: `set_sugar` rejects exactly the counts outside [0, 5] and
leaves the state unchanged when it rejects. -/
theorem set_sugar_spec (st : BuilderState) (t : Int) :
    ((set_sugar st t).2.isSome = true → (set_sugar st t).1 = st) ∧
    ((set_sugar st t).2.isSome = true ↔ ¬(0 ≤ t ∧ t ≤ 5)) := by
  unfold set_sugar
  by_cases hc : 0 ≤ t ∧ t ≤ 5
  · rw [if_pos (by simpa [SUGAR_RANGE] using hc)]
    refine ⟨fun h => by simp at h, ?_⟩
    constructor
    · intro h; simp at h
    · intro h; exact absurd hc h
  · rw [if_neg (by simpa [SUGAR_RANGE] using hc)]
    exact ⟨fun _ => rfl, iff_of_true rfl hc⟩

/-- C9: every failing setter call is atomic — `set_base`, `set_size`,
`set_milk`, `set_sugar` reject exactly the invalid arguments, raising at
that call, and a rejecting call leaves the entire configurator state
unchanged. -/
theorem setters_atomic :
    ∀ (st : BuilderState) (b s m : String) (t : Int),
      ((set_base st b).2.isSome = true → (set_base st b).1 = st) ∧
      ((set_size st s).2.isSome = true → (set_size st s).1 = st) ∧
      ((set_milk st m).2.isSome = true → (set_milk st m).1 = st) ∧
      ((set_sugar st t).2.isSome = true → (set_sugar st t).1 = st) ∧
      ((set_base st b).2.isSome = true ↔ BASE_PRICES b = none) ∧
      ((set_size st s).2.isSome = true ↔ SIZE_MULTIPLIERS s = none) ∧
      ((set_milk st m).2.isSome = true ↔ MILK_PRICES m = none) ∧
      ((set_sugar st t).2.isSome = true ↔ ¬(0 ≤ t ∧ t ≤ 5)) :=
  fun st b s m t =>
    ⟨(set_base_spec st b).1, (set_size_spec st s).1, (set_milk_spec st m).1,
      (set_sugar_spec st t).1, (set_base_spec st b).2, (set_size_spec st s).2,
      (set_milk_spec st m).2, (set_sugar_spec st t).2⟩

/-- C9 witness: rejected calls (unknown base, size, milk; negative sugar)
leave the fresh state unchanged. -/
theorem setters_atomic_witness :
    (set_base initState "tea").1 = initState ∧
    (set_size initState "mega").1 = initState ∧
    (set_milk initState "almond").1 = initState ∧
    (set_sugar initState (-1)).1 = initState := by
  have h := setters_atomic initState "tea" "mega" "almond" (-1)
  exact ⟨h.1 (by decide), h.2.1 (by decide), h.2.2.1 (by decide), h.2.2.2.1 (by decide)⟩

/-- C10: `add_syrup` validates nothing — every string (the empty string
included) is accepted without any possible error and stored when under the
4-syrup cap, and `build` prices it at the flat 40 and includes it verbatim
in the description. -/
theorem add_syrup_no_validation :
    ∀ (nm : String) (st : BuilderState),
      (st.syrups.length < MAX_SYRUPS → nm ∉ st.syrups →
        add_syrup st nm = { st with syrups := st.syrups ++ [nm] }) ∧
      (∃ o : CoffeeOrder,
        (buildS ⟨some "espresso", some "small", "none", [nm], 0, false⟩).2 = Except.ok o ∧
        o.price = 240 ∧ ∃ pre : String, o.description = pre ++ nm) := by
  intro nm st
  constructor
  · intro h1 h2
    unfold add_syrup
    rw [if_neg (not_le.mpr h1), if_neg h2]
  · obtain ⟨o, ho, _, _, _, _, _, _, hp, hd⟩ :=
      buildS_fields "espresso" "small" "none" [nm] 0 false
    refine ⟨o, ho, ?_, ?_⟩
    · rw [hp]
      norm_num [show BASE_PRICES "espresso" = some 200 from rfl,
        show SIZE_MULTIPLIERS "small" = some 1.0 from rfl,
        show MILK_PRICES "none" = some 0.0 from rfl, SYRUP_PRICE]
    · rw [hd]
      refine ⟨"small espresso + ", ?_⟩
      simp only [descriptionSpec, sortSyrups, List.insertionSort, List.orderedInsert]
      rw [show String.intercalate ", " [nm] = nm from rfl]
      simp

/-- C10 witness: the empty string as a syrup name — accepted, stored,
priced at 40, and appended verbatim to the description. -/
theorem add_syrup_no_validation_witness :
    add_syrup initState "" = { initState with syrups := [""] } ∧
    ∃ o : CoffeeOrder,
      (buildS ⟨some "espresso", some "small", "none", [""], 0, false⟩).2 = Except.ok o ∧
      o.price = 240 ∧ ∃ pre : String, o.description = pre ++ "" := by
  have h := add_syrup_no_validation "" initState
  exact ⟨h.1 (by decide) (by decide), h.2⟩

end Coffee
